import Mathlib

/-!
Shallow embedding of the jira-extractor repository (Python) in Lean 4, together
with theorems settling the frozen claims about its specification.

Embedded modules:
- src/jira_extractor/utils/link_handlers.py  (LinkHandler: process_link and the
  four fetchers, including the recursive process_jira_link)
- src/jira_extractor/core/processor.py       (TicketProcessor pipeline)
- src/jira_extractor/core/extractor.py       (JiraTicketExtractor batch engine)
- src/jira_extractor/utils/confluence.py     (ConfluenceContent.process_inline_comments)
- src/jira_extractor/utils/file_utils.py     (FileUtils, modelled as always-succeeding
  filesystem actions recorded as events)

Modelling conventions:
- Filesystem and network actions are recorded as an `Event` trace; file writes
  carry an `Artifact` value describing what the source serializes.
- Remote collaborators (Jira client, requests session, Confluence API) are an
  explicit `Env` of functions returning `Except String`, modelling Python
  exceptions raised by those calls.
- The unbounded mutual recursion process_link <-> process_jira_link has no
  termination guard in the source; it is embedded with an explicit fuel
  parameter standing for the Python call stack, plus a depth counter used
  purely as instrumentation (the `Event.visit` events). Every event produced
  at a given fuel is an action the Python code performs in the corresponding
  (possibly non-terminating) execution.
- Concurrency of the batch thread pool is embedded sequentially in batch
  order; batch workers write to disjoint subtrees and the per-batch results
  are order-insensitive except for the order of the failed-batch list.
-/

set_option autoImplicit false

namespace JiraExtractor

/-! ## Character and string primitives (models of the Python ones used) -/

/-- List-of-chars starts-with test. -/
def charsPre : List Char → List Char → Bool
  | [], _ => true
  | _ :: _, [] => false
  | a :: as, b :: bs => a = b && charsPre as bs

/-- Model of the Python substring test `needle in hay` on char lists. -/
def charsSubstr (needle : List Char) : List Char → Bool
  | [] => charsPre needle []
  | c :: rest => charsPre needle (c :: rest) || charsSubstr needle rest

/-- Model of the Python substring test `needle in hay` on strings. -/
def isSubstr (needle hay : String) : Bool :=
  charsSubstr needle.data hay.data

/-- Model of Python `str.split(sep)` for a single-character separator
(keeps empty fields, as Python does). -/
def splitChar (sep : Char) : List Char → List (List Char)
  | [] => [[]]
  | c :: rest =>
    let r := splitChar sep rest
    if c = sep then [] :: r
    else
      match r with
      | h :: t => (c :: h) :: t
      | [] => [[c]]

/-- Model of the Python expression `url.split('/')[-1]` used by
process_jira_link to extract the ticket key from a browse URL. -/
def lastComponent (url : String) : String :=
  match (splitChar '/' url.data).getLast? with
  | some l => String.mk l
  | none => ""

/-- Model of `urlparse(url).netloc` for hierarchical URLs: the text after the
first "//" up to the first of '/', '?', '#'.  This matches Python's urlparse
on every scheme://host/... URL, which is the shape produced by the URL
regexes in the source. -/
def netloc (url : String) : String :=
  match url.data.dropWhile (fun c => c ≠ '/') with
  | '/' :: '/' :: rest =>
      String.mk (rest.takeWhile (fun c => c ≠ '/' && c ≠ '?' && c ≠ '#'))
  | _ => ""

/-- Model of Python `set(urls)` followed by iteration: duplicates removed.
Python's set iteration order is unspecified; this model keeps first-occurrence
order, which the claims never depend on (only membership and counts do). -/
def pySet : List String → List String
  | [] => []
  | u :: rest => u :: (pySet rest).filter (fun v => v != u)

/-- Model of Python `urls.index(url)`: index of the first occurrence. -/
def indexOfFirst (l : List String) (u : String) : Nat :=
  l.indexOf u

/-- Truthiness of an optional string, modelling Python `if s:` on a field that
is either None or a string (None and "" are falsy). -/
def optTruthy : Option String → Bool
  | none => false
  | some s => s ≠ ""

/-! ## Models of the two URL regexes

The source discovers URLs with `re.findall` and two patterns:
- descriptions (processor._extract_links, link_handlers.process_jira_link):
  a scheme, a host of word/dot/dash chars or %hh escapes, a path of
  word/slash/dot/dash chars, and an optional ?query of non-space chars;
- comment bodies: a scheme followed by one or more chars that are not
  whitespace, ']', '|' or '>'.

Both patterns are star/optional after the mandatory part, so the greedy
left-to-right scan below is exactly the regex semantics.  Python's \w and \s
are modelled at ASCII (URLs in the claims are ASCII). -/

/-- ASCII model of the regex class \w. -/
def isWordChar (c : Char) : Bool :=
  c.isAlpha || c.isDigit || c = '_'

/-- Characters of the host part class [-\w.]. -/
def isHostChar (c : Char) : Bool :=
  isWordChar c || c = '-' || c = '.'

/-- Characters of the path part class [/\w\.-]. -/
def isPathChar (c : Char) : Bool :=
  isWordChar c || c = '/' || c = '.' || c = '-'

/-- ASCII model of the regex class \s. -/
def pyIsSpace (c : Char) : Bool :=
  c = ' ' || c = '\t' || c = '\n' || c = '\r' || c = '\x0b' || c = '\x0c'

/-- Hex digit test for the %hh escapes of the description pattern. -/
def isHexChar (c : Char) : Bool :=
  c.isDigit || (('a' ≤ c) && (c ≤ 'f')) || (('A' ≤ c) && (c ≤ 'F'))

/-- Characters allowed after the scheme by the comment-body pattern. -/
def commentUrlChar (c : Char) : Bool :=
  !(pyIsSpace c) && c ≠ ']' && c ≠ '|' && c ≠ '>'

/-- Match `https?://` at the start of the input, returning the consumed scheme
characters and the rest. -/
def httpAfter (s : List Char) : Option (List Char × List Char) :=
  if charsPre "https://".data s then some ("https://".data, s.drop 8)
  else if charsPre "http://".data s then some ("http://".data, s.drop 7)
  else none

/-- Match the comment-body URL pattern at the start of the input. -/
def matchCommentUrl (s : List Char) : Option (List Char × List Char) :=
  match httpAfter s with
  | none => none
  | some (pre, rest) =>
    let body := rest.takeWhile commentUrlChar
    if body.isEmpty then none
    else some (pre ++ body, rest.drop body.length)

/-- Number of characters consumed by one repetition of the host alternation
`[-\w.]` or `%hh` at the head of the input (0 when neither matches). -/
def consumeHostToken (s : List Char) : Nat :=
  match s with
  | [] => 0
  | c :: rest =>
    if isHostChar c then 1
    else if c = '%' then
      match rest with
      | a :: b :: _ => if isHexChar a && isHexChar b then 3 else 0
      | _ => 0
    else 0

/-- Iterated host-token consumption with explicit fuel (each consumed token
is nonempty, so fuel equal to the input length always suffices; the fuel only
makes the structural recursion explicit). -/
def consumeHostCountF : Nat → List Char → Nat
  | 0, _ => 0
  | f + 1, s =>
    match consumeHostToken s with
    | 0 => 0
    | n + 1 => (n + 1) + consumeHostCountF f (s.drop (n + 1))

/-- Total number of characters greedily consumed by
`(?:[-\w.]|(?:%[\da-fA-F]{2}))+` at the head of the input. -/
def consumeHostCount (s : List Char) : Nat :=
  consumeHostCountF s.length s

/-- Match the description URL pattern at the start of the input.  After the
scheme: a nonempty greedy host, a greedy (possibly empty) path of path
characters, and an optional query introduced by a nonempty run of non-space
characters after a question mark. -/
def matchDescUrl (s : List Char) : Option (List Char × List Char) :=
  match httpAfter s with
  | none => none
  | some (pre, rest) =>
    let n := consumeHostCount rest
    if n = 0 then none
    else
      let host := rest.take n
      let rest1 := rest.drop n
      let path := rest1.takeWhile isPathChar
      let rest2 := rest1.drop path.length
      match rest2 with
      | [] => some (pre ++ host ++ path, [])
      | c :: q =>
        if c = '?' then
          let qc := q.takeWhile (fun ch => !(pyIsSpace ch))
          if qc.isEmpty then some (pre ++ host ++ path, c :: q)
          else some (pre ++ host ++ path ++ c :: qc, q.drop qc.length)
        else some (pre ++ host ++ path, c :: q)

/-- One scan step of `re.findall`: try the matcher at the current position;
on a match, emit it and resume after it, otherwise advance one character.
Every match consumes at least the scheme, so fuel equal to the input length
always suffices; the fuel only makes the recursion structural. -/
def findallAuxF (matchAt : List Char → Option (List Char × List Char)) :
    Nat → List Char → List String
  | 0, _ => []
  | f + 1, s =>
    match s with
    | [] => []
    | c :: rest =>
      match matchAt (c :: rest) with
      | some (m, rest2) => String.mk m :: findallAuxF matchAt f rest2
      | none => findallAuxF matchAt f rest

/-- URLs found in a comment body, as in the source's
`re.findall(r"https?://[^\s\]\|>]+", comment.body)`. -/
def findallComment (s : String) : List String :=
  findallAuxF matchCommentUrl s.data.length s.data

/-- URLs found in a description, as in the source's
`re.findall(r"https?://(?:[-\w.]|(?:%[\da-fA-F]{2}))+[/\w\.-]*(?:\?\S+)?", d)`. -/
def findallDesc (s : String) : List String :=
  findallAuxF matchDescUrl s.data.length s.data

/-! ## Data model

Immutable value records for the loosely-typed remote objects, populated at the
fetch boundary (issue/comment/attachment records and Confluence pages), plus
the artifact and event vocabulary used to record filesystem and network
actions. -/

/-- A Jira attachment reference; `content` models `attachment.get()`, which
can raise. -/
structure JiraAttachment where
  filename : String
  size : Nat
  created : String
  content : Except String String
  deriving Repr

/-- A Jira comment as the processor reads it (`body` may be None). -/
structure JiraComment where
  id : String
  author : String
  created : String
  updated : String
  body : Option String
  visibility : String
  attachments : List JiraAttachment
  deriving Repr

/-- A Jira issue as read from the API (assignee/reporter display names may be
absent, matching the getattr defaults in the source). -/
structure JiraIssue where
  key : String
  summary : String
  status : String
  created : String
  updated : String
  issueType : String
  projectKey : String
  description : Option String
  assignee : Option String
  reporter : Option String
  attachments : List JiraAttachment
  deriving Repr

/-- The ticket dictionary built identically in processor._save_ticket_info,
processor._create_ticket_pdf and link_handlers.process_jira_link. -/
structure TicketData where
  key : String
  summary : String
  description : Option String
  status : String
  created : String
  updated : String
  issueType : String
  assignee : String
  reporter : String
  deriving DecidableEq, Repr

/-- Model of the shared ticket-dict construction, including the
"Unassigned"/"Unknown" getattr defaults. -/
def mkTicketData (i : JiraIssue) : TicketData :=
  { key := i.key
    summary := i.summary
    description := i.description
    status := i.status
    created := i.created
    updated := i.updated
    issueType := i.issueType
    assignee := i.assignee.getD "Unassigned"
    reporter := i.reporter.getD "Unknown" }

/-- An HTTP response from `session.get` (raise_for_status raises when
`status ≥ 400`). -/
structure HttpResponse where
  status : Nat
  contentType : String
  body : String
  deriving Repr

/-- A raw Confluence descendant comment as read from the API response
(confluence.py ConfluenceContent.__init__): its location extension, the id of
`ancestors[0]` when the ancestor list is nonempty, and the inline-properties
original selection. -/
structure RawComment where
  id : String
  author : String
  body : String
  location : String
  parentId : Option String
  inlineSource : String
  deriving DecidableEq, Repr

/-- An entry of the output list built by process_inline_comments: a top-level
inline comment with its replies as (author, comment) pairs. -/
structure ThreadItem where
  id : String
  inlineSource : String
  comments : List (String × String)
  deriving DecidableEq, Repr

/-- A raw Confluence page (id, title, body.storage.value, and descendant
comments) as returned by the API before ConfluenceContent parses it. -/
structure RawPage where
  id : String
  title : String
  body : String
  comments : List RawComment
  deriving Repr

/-- The parsed ConfluenceContent fields the link handler uses. -/
structure ConfluenceContent where
  id : String
  title : String
  content : String
  inlineComments : List ThreadItem
  deriving Repr

/-- The comment-info dictionary serialized into comments.json. -/
structure CommentInfo where
  id : String
  author : String
  created : String
  updated : String
  body : String
  visibility : String
  attachments : List (String × Nat × String)
  links : List String
  deriving DecidableEq, Repr

/-- What a written file contains, at the granularity the claims need. -/
inductive Artifact where
  /-- The Google-link stub JSON written by process_google_link. -/
  | googleNote (url : String)
  /-- An error-record JSON written by a fetcher except-branch:
  the dict has exactly the keys url, type and error. -/
  | errJson (url ty err : String)
  /-- A rendered text PDF (save_text_as_pdf with a title). -/
  | textPdf (title text : String)
  /-- Raw bytes saved in binary mode. -/
  | bin (data : String)
  /-- An HTML page saved as text. -/
  | htmlPage (text : String)
  /-- A PDF document saved from response bytes. -/
  | pdfBytes (data : String)
  /-- The nested-ticket JSON written by process_jira_link. -/
  | ticketJson (t : TicketData)
  /-- A ticket PDF produced by PDFConverter.create_ticket_pdf. -/
  | ticketPdf (t : TicketData)
  /-- The {key}_info.json written by _save_ticket_info. -/
  | infoJson (t : TicketData)
  /-- The comments.json aggregate written by _extract_comments. -/
  | commentsJson (cs : List CommentInfo)
  /-- A per-comment comment_info.txt. -/
  | commentTxt (cid : String)
  deriving DecidableEq, Repr

/-- Filesystem and network actions performed by the embedded code, in
program order.  `visit` is pure instrumentation marking each entry into
process_link together with the recursion depth of that entry. -/
inductive Event where
  | mkdir (path : String)
  | save (path : String) (a : Artifact)
  | jiraFetch (key : String)
  | commentsFetch (key : String)
  | httpGet (url : String)
  | confluenceFetch (url : String)
  | genericFetch (url : String)
  | visit (url : String) (depth : Nat)
  deriving DecidableEq, Repr

/-- The remote world: authenticated Jira client, requests session and
Confluence API, all read-only collaborators.  `Except.error` models a raised
exception.  `textFromHtml` is the BeautifulSoup text extraction, an external
pure collaborator. -/
structure Env where
  issue : String → Except String JiraIssue
  comments : String → Except String (List JiraComment)
  httpGet : String → Except String HttpResponse
  confluenceRaw : String → Except String (RawPage × List String)
  textFromHtml : String → String
  searchTotal : Except String Nat
  search : Nat → Nat → Except String (List JiraIssue)

/-! ## Link classification and the fetchers (utils/link_handlers.py) -/

/-- Which branch of LinkHandler.process_link first matches a URL.
`nomatch` is the fall-through where no branch matches and the method body
ends, returning None. -/
inductive LinkKind where
  | google
  | confluence
  | jira
  | noMatch
  deriving DecidableEq, Repr

/-- Model of the branch conditions of process_link, in source order:
1. `"docs.google.com" in domain or "drive.google.com" in domain`;
2. `("wiki" and "spaces" and "pages") in url` — in Python the parenthesized
   `and`-chain evaluates to its last operand, so this tests only
   `"pages" in url` (anywhere in the URL, not only in the path);
3. `self.project_key and ("browse" in url)` (project_key truthy, i.e. not
   None and not empty). -/
def classify (projectKey : Option String) (url : String) : LinkKind :=
  let domain := netloc url
  if isSubstr "docs.google.com" domain || isSubstr "drive.google.com" domain then
    .google
  else if isSubstr "pages" url then
    .confluence
  else if optTruthy projectKey && isSubstr "browse" url then
    .jira
  else
    .noMatch

/-- Model of LinkHandler.process_google_link: writes a stub JSON (no fetch)
and returns the save result. -/
def processGoogleLink (url linksDir pfx : String) : Bool × List Event :=
  (true, [.save (linksDir ++ "/" ++ pfx ++ "_google_link.json") (.googleNote url)])

/-- Model of LinkHandler.process_generic_link: GET with timeout, branch on
Content-Type; on any transport or status error, write the
`{url, type: "generic", error}` record instead of raising. -/
def processGenericLink (env : Env) (url linksDir pfx : String) : Bool × List Event :=
  match env.httpGet url with
  | .error e =>
    (true, [.genericFetch url, .httpGet url,
      .save (linksDir ++ "/" ++ pfx ++ "_link.json") (.errJson url "generic" e)])
  | .ok r =>
    if r.status ≥ 400 then
      (true, [.genericFetch url, .httpGet url,
        .save (linksDir ++ "/" ++ pfx ++ "_link.json")
          (.errJson url "generic" ("HTTP error " ++ toString r.status))])
    else if isSubstr "text/html" r.contentType.toLower then
      (true, [.genericFetch url, .httpGet url,
        .save (linksDir ++ "/" ++ pfx ++ "_webpage.html") (.htmlPage r.body)])
    else if isSubstr "application/pdf" r.contentType.toLower then
      (true, [.genericFetch url, .httpGet url,
        .save (linksDir ++ "/" ++ pfx ++ "_document.pdf") (.pdfBytes r.body)])
    else
      (true, [.genericFetch url, .httpGet url,
        .save (linksDir ++ "/" ++ pfx ++ "_content.bin") (.bin r.body)])

/-- Append a reply under the first item whose id equals the parent id,
mirroring the in-place mutation loop of process_inline_comments; `none`
when no item has that id. -/
def appendToParent (p : String) (entry : String × String) :
    List ThreadItem → Option (List ThreadItem)
  | [] => none
  | item :: rest =>
    if item.id = p then
      some ({ item with comments := item.comments ++ [entry] } :: rest)
    else
      (appendToParent p entry rest).map (item :: ·)

/-- Model of ConfluenceContent.process_inline_comments over an accumulator:
a comment with a parent id is appended under that parent if already seen,
otherwise `ValueError("Parent ID ... not found in output list")` is raised;
a comment without ancestors starts a new top-level item. -/
def processInlineCommentsAux (out : List ThreadItem) :
    List RawComment → Except String (List ThreadItem)
  | [] => .ok out
  | c :: rest =>
    match c.parentId with
    | some p =>
      match appendToParent p (c.author, c.body) out with
      | some out2 => processInlineCommentsAux out2 rest
      | none => .error ("Parent ID " ++ p ++ " not found in output list")
    | none =>
      processInlineCommentsAux
        (out ++ [{ id := c.id, inlineSource := c.inlineSource,
                   comments := [(c.author, c.body)] }]) rest

/-- Model of ConfluenceContent.process_inline_comments. -/
def processInlineComments (cs : List RawComment) : Except String (List ThreadItem) :=
  processInlineCommentsAux [] cs

/-- Model of the ConfluenceContent constructor: filters the descendant
comments to the inline ones and parses the thread (which can raise). -/
def mkConfluenceContent (p : RawPage) : Except String ConfluenceContent :=
  match processInlineComments (p.comments.filter (fun c => c.location = "inline")) with
  | .error e => .error e
  | .ok thread => .ok { id := p.id, title := p.title, content := p.body, inlineComments := thread }

/-- Model of ConfluencePagehelper.get_content_by_page_url: fetch the raw page
and attachment download URLs, then parse the page content (any step can
raise). -/
def getContentByPageUrl (env : Env) (url : String) :
    Except String (ConfluenceContent × List String) :=
  match env.confluenceRaw url with
  | .error e => .error e
  | .ok (p, atts) =>
    match mkConfluenceContent p with
    | .error e => .error e
    | .ok content => .ok (content, atts)

/-- Events of the attachment download loop of process_confluence_link:
each attachment URL is fetched with the session; a transport or status
failure on one attachment is logged and skipped. -/
def confAttEvents (env : Env) (linksDir pfx : String) : Nat → List String → List Event
  | _, [] => []
  | i, a :: rest =>
    (match env.httpGet a with
     | .ok r =>
       if r.status ≥ 400 then [Event.httpGet a]
       else [Event.httpGet a,
         Event.save (linksDir ++ "/" ++ pfx ++ "_attachment_" ++ toString (i + 1) ++ ".pdf")
           (.bin r.body)]
     | .error _ => [Event.httpGet a]) ++ confAttEvents env linksDir pfx (i + 1) rest

/-- Model of LinkHandler.process_confluence_link: fetch and parse the page,
save its visible text as a titled PDF, download each attachment; on any
failure of the fetch/parse, write the `{url, type: "confluence", error}`
record and return the save result. -/
def processConfluenceLink (env : Env) (url linksDir pfx : String) : Bool × List Event :=
  match getContentByPageUrl env url with
  | .error e =>
    (true, [.confluenceFetch url,
      .save (linksDir ++ "/" ++ pfx ++ "_confluence_link.json") (.errJson url "confluence" e)])
  | .ok (content, atts) =>
    let text := env.textFromHtml content.content
    (true, [.confluenceFetch url,
      .save (linksDir ++ "/" ++ content.title ++ "_confluence.pdf") (.textPdf content.title text)]
      ++ confAttEvents env linksDir pfx 0 atts)

/-- Run a sequence of nested process_link calls (a `for url in ...:` loop
whose results are discarded), collecting their event traces. -/
def runCalls (recur : String → String → String → Option Bool × List Event)
    (linksDir : String) : List (String × String) → List Event
  | [] => []
  | (u, p) :: rest => (recur u linksDir p).2 ++ runCalls recur linksDir rest

/-- The (url, file name base) pairs of the description-link loop: one call
per occurrence (no deduplication), named with `urls.index(url)`, the index
of the FIRST occurrence. -/
def descCalls (urls : List String) : List (String × String) :=
  urls.map (fun u => (u, "description_link_" ++ toString (indexOfFirst urls u)))

/-- The (url, file name base) pairs of a comment-link loop: the found URLs
are passed through `set()` before enumeration. -/
def commentCalls (cid : String) (urls : List String) : List (String × String) :=
  (pySet urls).enum.map (fun p => (p.2, "comment_" ++ cid ++ "_link_" ++ toString p.1))

/-- URLs the source extracts from an optional description field, guarded by
Python truthiness (`if issue.fields.description:`). -/
def descUrls (d : Option String) : List String :=
  match d with
  | none => []
  | some s => if s = "" then [] else findallDesc s

/-- The nested process_link calls made for one comment: none when the body is
falsy (`if comment.body:` guard), otherwise one per set-deduplicated URL. -/
def commentBodyCalls (c : JiraComment) : List (String × String) :=
  match c.body with
  | none => []
  | some b => if b = "" then [] else commentCalls c.id (findallComment b)

/-- Events of the comment-link loops.  The loop bodies of
link_handlers.process_jira_link and processor._extract_links are line-for-line
identical (guard on the body, findall, set, enumerate, process_link), so both
are embedded by this one definition, differing only in the `recur` they
pass. -/
def jiraCommentLoopEvents (recur : String → String → String → Option Bool × List Event)
    (nestedDir : String) : List JiraComment → List Event
  | [] => []
  | c :: rest =>
    runCalls recur nestedDir (commentBodyCalls c)
      ++ jiraCommentLoopEvents recur nestedDir rest

/-- Model of LinkHandler.process_jira_link with the nested process_link call
abstracted as `recur`.  Faithful details: the ticket key is
`url.split('/')[-1]`; the ticket JSON/PDF go into a per-key subdirectory with
a nested links directory; description URLs are NOT deduplicated and are
named by first-occurrence index; the loop variable `url` of the description
loop shadows the parameter, so if fetching the comment list raises, the
error record's url field holds the LAST description URL (when there was
one); any raise after the issue fetch still ends in the except branch that
writes the `{url, type: "jira", error}` record and returns the save
result. -/
def processJiraLinkBody (recur : String → String → String → Option Bool × List Event)
    (env : Env) (url linksDir pfx : String) : Bool × List Event :=
  let key := lastComponent url
  match env.issue key with
  | .error e =>
    (true, [.jiraFetch key,
      .save (linksDir ++ "/" ++ pfx ++ "_jira_link.json") (.errJson url "jira" e)])
  | .ok issue =>
    let ticketDir := linksDir ++ "/" ++ key
    let nested := ticketDir ++ "/links"
    let data := mkTicketData issue
    let setupEvents : List Event :=
      [.jiraFetch key, .mkdir ticketDir, .mkdir nested,
       .save (ticketDir ++ "/" ++ key ++ ".json") (.ticketJson data),
       .save (ticketDir ++ "/" ++ key ++ ".pdf") (.ticketPdf data)]
    let urls := descUrls issue.description
    let descEvents := runCalls recur nested (descCalls urls)
    let shadowedUrl := match urls.getLast? with
      | some u => u
      | none => url
    match env.comments key with
    | .error e =>
      (true, setupEvents ++ descEvents ++ [.commentsFetch key,
        .save (linksDir ++ "/" ++ pfx ++ "_jira_link.json") (.errJson shadowedUrl "jira" e)])
    | .ok cs =>
      (true, setupEvents ++ descEvents ++ [.commentsFetch key]
        ++ jiraCommentLoopEvents recur nested cs)

/-- Model of LinkHandler.process_link, the classifier/dispatcher.  The
Python recursion process_link -> process_jira_link -> process_link has no
base case; `fuel` models the call stack (fuel 0 truncates, performing
nothing), and `depth` instruments each entry with its recursion depth.  The
fall-through case performs no action and returns None (`Option.none`). -/
def processLink (env : Env) (pk : Option String) :
    Nat → Nat → String → String → String → Option Bool × List Event
  | 0, _, _, _, _ => (none, [])
  | fuel + 1, depth, url, linksDir, pfx =>
    let entry := Event.visit url depth
    match classify pk url with
    | .google =>
      let r := processGoogleLink url linksDir pfx
      (some r.1, entry :: r.2)
    | .confluence =>
      let r := processConfluenceLink env url linksDir pfx
      (some r.1, entry :: r.2)
    | .jira =>
      let r := processJiraLinkBody
        (fun u2 d2 p2 => processLink env pk fuel (depth + 1) u2 d2 p2)
        env url linksDir pfx
      (some r.1, entry :: r.2)
    | .noMatch => (none, [entry])

/-- LinkHandler.process_jira_link as called from process_link at a given
fuel and depth. -/
def processJiraLink (env : Env) (pk : Option String) (fuel depth : Nat)
    (url linksDir pfx : String) : Bool × List Event :=
  processJiraLinkBody
    (fun u2 d2 p2 => processLink env pk fuel (depth + 1) u2 d2 p2)
    env url linksDir pfx

/-! ## Ticket processor (core/processor.py) -/

/-- Model of TicketProcessor._save_ticket_info. -/
def saveTicketInfo (i : JiraIssue) (ticketDir : String) : Bool × List Event :=
  (true, [.save (ticketDir ++ "/" ++ i.key ++ "_info.json") (.infoJson (mkTicketData i))])

/-- Model of TicketProcessor._create_ticket_pdf. -/
def createTicketPdf (i : JiraIssue) (ticketDir : String) : Bool × List Event :=
  (true, [.save (ticketDir ++ "/" ++ i.key ++ ".pdf") (.ticketPdf (mkTicketData i))])

/-- The download loop of _extract_attachments: one download per issue
attachment; a failing download is logged and skipped. -/
def attachmentLoop (adir : String) : List JiraAttachment → List Event
  | [] => []
  | a :: rest =>
    (match a.content with
     | .ok bytes => [Event.save (adir ++ "/" ++ a.filename) (.bin bytes)]
     | .error _ => []) ++ attachmentLoop adir rest

/-- Model of TicketProcessor._extract_attachments. -/
def extractAttachments (i : JiraIssue) (ticketDir : String) : Bool × List Event :=
  let adir := ticketDir ++ "/attachments"
  (true, Event.mkdir adir :: attachmentLoop adir i.attachments)

/-- Comment attachment download loop of _extract_comments: returns the
attachments_info entries and the save events. -/
def commentAttachmentLoop (adir : String) :
    List JiraAttachment → List (String × Nat × String) × List Event
  | [] => ([], [])
  | a :: rest =>
    let r := commentAttachmentLoop adir rest
    match a.content with
    | .ok bytes =>
      ((a.filename, a.size, a.created) :: r.1,
        Event.save (adir ++ "/" ++ a.filename) (.bin bytes) :: r.2)
    | .error _ => r

/-- Comment link loop of _extract_comments: processes each set-deduplicated
URL and collects those whose process_link result is truthy (i.e. `some true`;
None and False are falsy). -/
def commentLinkLoop (env : Env) (pk : Option String) (fuel : Nat) (ldir : String) :
    List (String × String) → List String × List Event
  | [] => ([], [])
  | (u, p) :: rest =>
    let r := processLink env pk fuel 0 u ldir p
    let rec2 := commentLinkLoop env pk fuel ldir rest
    ((if r.1 = some true then [u] else []) ++ rec2.1, r.2 ++ rec2.2)

/-- Per-comment body of the _extract_comments loop.  `comment.body` is used
without a None-guard (`re.findall(..., comment.body)` raises TypeError on
None, aborting the whole method), so the result is `none` on a None body,
with the events performed so far. -/
def processOneComment (env : Env) (pk : Option String) (fuel : Nat)
    (commentsDir : String) (c : JiraComment) : Option (CommentInfo × List Event) × List Event :=
  let cdir := commentsDir ++ "/comment_" ++ c.id
  let attPart : List (String × Nat × String) × List Event :=
    match c.attachments with
    | [] => ([], [])
    | _ :: _ =>
      let adir := cdir ++ "/attachments"
      let r := commentAttachmentLoop adir c.attachments
      (r.1, Event.mkdir adir :: r.2)
  let baseEvents := Event.mkdir cdir :: attPart.2 ++ [Event.mkdir (cdir ++ "/links")]
  match c.body with
  | none => (none, baseEvents)
  | some b =>
    let lr := commentLinkLoop env pk fuel (cdir ++ "/links")
      (commentCalls c.id (findallComment b))
    let info : CommentInfo :=
      { id := c.id, author := c.author, created := c.created, updated := c.updated,
        body := b, visibility := c.visibility, attachments := attPart.1, links := lr.1 }
    (some (info, baseEvents ++ lr.2 ++ [Event.save (cdir ++ "/comment_info.txt") (.commentTxt c.id)]),
      baseEvents)

/-- The comment loop of _extract_comments: accumulates comments_data and
events, aborting (returning false) when a None body raises. -/
def extractCommentsLoop (env : Env) (pk : Option String) (fuel : Nat)
    (commentsDir : String) : List JiraComment → Bool × List CommentInfo × List Event
  | [] => (true, [], [])
  | c :: rest =>
    match processOneComment env pk fuel commentsDir c with
    | (some (info, evs), _) =>
      let r := extractCommentsLoop env pk fuel commentsDir rest
      (r.1, info :: r.2.1, evs ++ r.2.2)
    | (none, evs) => (false, [], evs)

/-- Model of TicketProcessor._extract_comments. -/
def extractComments (env : Env) (pk : Option String) (fuel : Nat)
    (i : JiraIssue) (ticketDir : String) : Bool × List Event :=
  let cdir := ticketDir ++ "/comments"
  match env.comments i.key with
  | .error _ => (false, [Event.mkdir cdir, Event.commentsFetch i.key])
  | .ok cs =>
    let r := extractCommentsLoop env pk fuel cdir cs
    if r.1 then
      (true, Event.mkdir cdir :: Event.commentsFetch i.key :: r.2.2
        ++ [Event.save (cdir ++ "/comments.json") (.commentsJson r.2.1)])
    else
      (false, Event.mkdir cdir :: Event.commentsFetch i.key :: r.2.2)

/-- Model of TicketProcessor._extract_links: description URLs are resolved
once per occurrence (no set), comment URLs once per distinct URL per
comment; a failing comment fetch aborts with False after the description
phase. -/
def extractLinks (env : Env) (pk : Option String) (fuel : Nat)
    (i : JiraIssue) (ticketDir : String) : Bool × List Event :=
  let ldir := ticketDir ++ "/links"
  let urls := descUrls i.description
  let descEvents := runCalls (fun u d2 p2 => processLink env pk fuel 0 u d2 p2) ldir
    (descCalls urls)
  match env.comments i.key with
  | .error _ => (false, Event.mkdir ldir :: descEvents)
  | .ok cs =>
    (true, Event.mkdir ldir :: descEvents ++ Event.commentsFetch i.key ::
      jiraCommentLoopEvents (fun u d2 p2 => processLink env pk fuel 0 u d2 p2) ldir cs)

/-- Model of TicketProcessor.process_ticket: the per-ticket pipeline with
short-circuiting on the first failing step. -/
def processTicket (env : Env) (pk : Option String) (fuel : Nat)
    (i : JiraIssue) (ticketDir : Option String) : Bool × List Event :=
  let dir := ticketDir.getD ("jira_tickets/" ++ i.key)
  let e0 := [Event.mkdir dir]
  let s1 := saveTicketInfo i dir
  if !s1.1 then (false, e0 ++ s1.2) else
  let s2 := createTicketPdf i dir
  if !s2.1 then (false, e0 ++ s1.2 ++ s2.2) else
  let s3 := extractAttachments i dir
  if !s3.1 then (false, e0 ++ s1.2 ++ s2.2 ++ s3.2) else
  let s4 := extractComments env pk fuel i dir
  if !s4.1 then (false, e0 ++ s1.2 ++ s2.2 ++ s3.2 ++ s4.2) else
  let s5 := extractLinks env pk fuel i dir
  (s5.1, e0 ++ s1.2 ++ s2.2 ++ s3.2 ++ s4.2 ++ s5.2)

/-! ## Batch extraction engine (core/extractor.py) -/

/-- The per-batch ticket loop of _process_batch: every issue is processed;
a failure only means its ticket is not counted. -/
def processBatchLoop (env : Env) (fuel : Nat) (pk : String) :
    List JiraIssue → Nat × List Event
  | [] => (0, [])
  | i :: rest =>
    let t := processTicket env (some pk) fuel i none
    let r := processBatchLoop env fuel pk rest
    ((if t.1 then 1 else 0) + r.1, t.2 ++ r.2)

/-- Model of JiraTicketExtractor._process_batch: fetch the page; an empty
page raises IndexError on `issues[0]`; otherwise the batch always reports
success, returning the count of tickets that completed. -/
def processBatch (env : Env) (fuel : Nat) (startAt batchSize : Nat) :
    (Bool × Nat) × List Event :=
  match env.search startAt batchSize with
  | .error _ => ((false, 0), [])
  | .ok [] => ((false, 0), [])
  | .ok (first :: rest) =>
    let r := processBatchLoop env fuel first.projectKey (first :: rest)
    ((true, r.1), r.2)

/-- The batch loop of extract_tickets: runs every batch, recording
`batch_num + 1` (1-indexed) for each failed batch.  The thread pool is
embedded in batch order; batch traces are disjoint subtrees and only the
order of the failed list depends on completion order. -/
def extractTicketsLoop (env : Env) (fuel : Nat) (batchSize : Nat) :
    List Nat → List Nat × Nat × List Event
  | [] => ([], 0, [])
  | b :: rest =>
    let r := processBatch env fuel (b * batchSize) batchSize
    let t := extractTicketsLoop env fuel batchSize rest
    ((if r.1.1 then [] else [b + 1]) ++ t.1, r.1.2 + t.2.1, r.2 ++ t.2.2)

/-- Model of JiraTicketExtractor.extract_tickets: ensure the output root
directory, probe the total, return True immediately on zero results,
otherwise run ceil(total / min(maxResults, 100)) batches and succeed iff no
batch failed.  A zero batch size raises ZeroDivisionError, caught by the
outer except (returning False). -/
def extractTickets (env : Env) (fuel : Nat) (maxResults : Nat) : Bool × List Event :=
  let root := [Event.mkdir "jira_tickets"]
  match env.searchTotal with
  | .error _ => (false, root)
  | .ok 0 => (true, root)
  | .ok total =>
    let batchSize := min maxResults 100
    if batchSize = 0 then (false, root)
    else
      let numBatches := (total + batchSize - 1) / batchSize
      let r := extractTicketsLoop env fuel batchSize (List.range numBatches)
      (r.1.isEmpty, root ++ r.2.2)

/-! ## Concrete environments and fixtures used by the claim theorems -/

/-- Is an event a file write? -/
def isSave : Event → Bool
  | .save _ _ => true
  | _ => false

/-- A minimal issue fixture. -/
def mkIssueFx (key : String) (desc : Option String) : JiraIssue :=
  { key := key, summary := "s", status := "Open", created := "c", updated := "u",
    issueType := "Task", projectKey := "K", description := desc,
    assignee := none, reporter := none, attachments := [] }

/-- A base environment where every remote call fails. -/
def envBase : Env :=
  { issue := fun _ => .error "no issue"
    comments := fun _ => .error "no comments"
    httpGet := fun _ => .error "offline"
    confluenceRaw := fun _ => .error "offline"
    textFromHtml := id
    searchTotal := .error "offline"
    search := fun _ _ => .error "offline" }

/-- Environment of a self-referencing ticket: the description of K-1 contains
its own browse URL. -/
def envCycle : Env :=
  { envBase with
    issue := fun k =>
      if k = "K-1" then .ok (mkIssueFx "K-1" (some "see http://j/browse/K-1"))
      else .error "no issue"
    comments := fun _ => .ok [] }

/-- Environment of a 7-ticket reference chain K1 -> K2 -> ... -> K7. -/
def envChain : Env :=
  { envBase with
    issue := fun k =>
      if k = "K1" then .ok (mkIssueFx "K1" (some "see http://j/browse/K2")) else
      if k = "K2" then .ok (mkIssueFx "K2" (some "see http://j/browse/K3")) else
      if k = "K3" then .ok (mkIssueFx "K3" (some "see http://j/browse/K4")) else
      if k = "K4" then .ok (mkIssueFx "K4" (some "see http://j/browse/K5")) else
      if k = "K5" then .ok (mkIssueFx "K5" (some "see http://j/browse/K6")) else
      if k = "K6" then .ok (mkIssueFx "K6" (some "see http://j/browse/K7")) else
      if k = "K7" then .ok (mkIssueFx "K7" none) else .error "no issue"
    comments := fun _ => .ok [] }

/-- An issue whose description repeats the same URL twice. -/
def issueDupDesc : JiraIssue := mkIssueFx "K-1" (some "http://g.co/a http://g.co/a")

/-- An issue with no attachments and no description. -/
def issueEmpty : JiraIssue := mkIssueFx "K-1" none

/-- A second empty issue whose comment fetch fails in `envBatch`. -/
def issueBadComments : JiraIssue := mkIssueFx "K-2" none

/-- Environment with empty comment lists for every ticket. -/
def envOkComments : Env := { envBase with comments := fun _ => .ok [] }

/-- Environment whose probe reports zero results. -/
def envZero : Env := { envBase with searchTotal := .ok 0 }

/-- Environment whose HTTP GETs complete with a 404 response (the
raise_for_status failure mode, as opposed to a transport failure). -/
def envHttp404 : Env :=
  { envBase with
    httpGet := fun _ => .ok { status := 404, contentType := "text/html", body := "not found" } }

/-- A comment whose body repeats the same URL three times. -/
def commentTriple : JiraComment :=
  { id := "10", author := "a", created := "c", updated := "u",
    body := some "http://x.y/z http://x.y/z http://x.y/z",
    visibility := "None", attachments := [] }

/-- Environment whose comment fetch returns the triple-URL comment. -/
def envTriple : Env := { envBase with comments := fun _ => .ok [commentTriple] }

/-- A top-level inline comment. -/
def rcTop : RawComment :=
  { id := "1", author := "A", body := "b1", location := "inline",
    parentId := none, inlineSource := "sel" }

/-- An inline comment referencing the unknown parent id 9. -/
def rcBad : RawComment :=
  { id := "2", author := "B", body := "b2", location := "inline",
    parentId := some "9", inlineSource := "sel2" }

/-- A Confluence page whose inline thread contains the bad reference. -/
def pageBad : RawPage :=
  { id := "100", title := "T", body := "x", comments := [rcTop, rcBad] }

/-- Environment serving the bad page. -/
def envConf : Env :=
  { envBase with
    confluenceRaw := fun u =>
      if u = "http://w/pages/100" then .ok (pageBad, []) else .error "nf" }

/-- Environment with one batch of two tickets where the comment fetch of K-2
raises, so the K-2 ticket fails while K-1 completes. -/
def envBatch : Env :=
  { envBase with
    comments := fun k => if k = "K-2" then .error "boom" else .ok []
    searchTotal := .ok 2
    search := fun s _ => if s = 0 then .ok [issueEmpty, issueBadComments] else .error "bad page" }

/-! ## Helper lemmas -/

theorem pySet_count (l : List String) (w : String) :
    (pySet l).count w = if w ∈ l then 1 else 0 := by
  induction l with
  | nil => simp [pySet]
  | cons u rest ih =>
    by_cases hv : u = w
    · subst hv
      have hz : (List.filter (fun v => v != u) (pySet rest)).count u = 0 := by
        apply List.count_eq_zero_of_not_mem
        intro hmem
        have := List.of_mem_filter hmem
        simp at this
      simp [pySet, List.count_cons, hz]
    · have hwu : ¬(w = u) := fun h => hv h.symm
      have hf : (List.filter (fun v => v != u) (pySet rest)).count w
          = (pySet rest).count w := by
        apply List.count_filter
        simpa using hwu
      simp [pySet, List.count_cons, hf, ih, hv, hwu]

theorem commentCalls_map_fst (cid : String) (urls : List String) :
    (commentCalls cid urls).map Prod.fst = pySet urls := by
  simp only [commentCalls, List.map_map]
  have : (Prod.fst ∘ fun p : Nat × String =>
      (p.2, "comment_" ++ cid ++ "_link_" ++ toString p.1)) = Prod.snd := by
    funext p; rfl
  rw [this, List.enum_map_snd]

theorem descCalls_map_fst (urls : List String) :
    (descCalls urls).map Prod.fst = urls := by
  simp only [descCalls, List.map_map]
  have : (Prod.fst ∘ fun u : String =>
      (u, "description_link_" ++ toString (indexOfFirst urls u))) = id := by
    funext u; rfl
  rw [this, List.map_id]

theorem runCalls_mem {recur : String → String → String → Option Bool × List Event}
    {dir : String} {e : Event} :
    ∀ {calls : List (String × String)}, e ∈ runCalls recur dir calls →
      ∃ u p, e ∈ (recur u dir p).2 := by
  intro calls
  induction calls with
  | nil => intro h; simp [runCalls] at h
  | cons hd tl ih =>
    obtain ⟨u, p⟩ := hd
    intro h
    rw [runCalls, List.mem_append] at h
    rcases h with h | h
    · exact ⟨u, p, h⟩
    · exact ih h

theorem jiraCommentLoopEvents_mem {recur : String → String → String → Option Bool × List Event}
    {dir : String} {e : Event} :
    ∀ {cs : List JiraComment}, e ∈ jiraCommentLoopEvents recur dir cs →
      ∃ u p, e ∈ (recur u dir p).2 := by
  intro cs
  induction cs with
  | nil => intro h; simp [jiraCommentLoopEvents] at h
  | cons c rest ih =>
    intro h
    rw [jiraCommentLoopEvents, List.mem_append] at h
    rcases h with h | h
    · exact runCalls_mem h
    · exact ih h

theorem confAttEvents_shape {env : Env} {dir pfx : String} {e : Event} :
    ∀ {n : Nat} {atts : List String}, e ∈ confAttEvents env dir pfx n atts →
      (∃ u, e = Event.httpGet u) ∨ (∃ p a, e = Event.save p a) := by
  intro n atts
  induction atts generalizing n with
  | nil => intro h; simp [confAttEvents] at h
  | cons a rest ih =>
    intro h
    rw [confAttEvents, List.mem_append] at h
    rcases h with h | h
    · split at h
      · split at h
        · simp only [List.mem_singleton] at h
          subst h; exact .inl ⟨a, rfl⟩
        · simp only [List.mem_cons, List.mem_singleton] at h
          rcases h with h | h | h
          · subst h; exact .inl ⟨a, rfl⟩
          · subst h; exact .inr ⟨_, _, rfl⟩
          · simp at h
      · simp only [List.mem_singleton] at h
        subst h; exact .inl ⟨a, rfl⟩
    · exact ih h

theorem processConfluenceLink_shape {env : Env} {url dir pfx : String} {e : Event}
    (h : e ∈ (processConfluenceLink env url dir pfx).2) :
    (∃ u, e = Event.confluenceFetch u) ∨ (∃ p a, e = Event.save p a)
      ∨ (∃ u, e = Event.httpGet u) := by
  unfold processConfluenceLink at h
  split at h
  · simp only [List.mem_cons, List.not_mem_nil, or_false] at h
    rcases h with rfl | rfl
    · exact .inl ⟨url, rfl⟩
    · exact .inr (.inl ⟨_, _, rfl⟩)
  · rw [List.mem_append] at h
    rcases h with h | h
    · simp only [List.mem_cons, List.not_mem_nil, or_false] at h
      rcases h with rfl | rfl
      · exact .inl ⟨url, rfl⟩
      · exact .inr (.inl ⟨_, _, rfl⟩)
    · rcases confAttEvents_shape h with h2 | h2
      · exact .inr (.inr h2)
      · exact .inr (.inl h2)

theorem processJiraLinkBody_mem {recur : String → String → String → Option Bool × List Event}
    {env : Env} {url dir pfx : String} {e : Event}
    (h : e ∈ (processJiraLinkBody recur env url dir pfx).2) :
    (∃ k, e = Event.jiraFetch k) ∨ (∃ p, e = Event.mkdir p)
      ∨ (∃ p a, e = Event.save p a) ∨ (∃ k, e = Event.commentsFetch k)
      ∨ ∃ u d2 p, e ∈ (recur u d2 p).2 := by
  simp only [processJiraLinkBody] at h
  split at h
  · simp only [List.mem_cons, List.not_mem_nil, or_false] at h
    rcases h with rfl | rfl
    · exact .inl ⟨_, rfl⟩
    · exact .inr (.inr (.inl ⟨_, _, rfl⟩))
  · split at h
    · simp only [List.append_assoc, List.mem_append, List.mem_cons,
        List.not_mem_nil, or_false] at h
      rcases h with (rfl | rfl | rfl | rfl | rfl) | h | (rfl | rfl)
      · exact .inl ⟨_, rfl⟩
      · exact .inr (.inl ⟨_, rfl⟩)
      · exact .inr (.inl ⟨_, rfl⟩)
      · exact .inr (.inr (.inl ⟨_, _, rfl⟩))
      · exact .inr (.inr (.inl ⟨_, _, rfl⟩))
      · obtain ⟨u, p, hm⟩ := runCalls_mem h
        exact .inr (.inr (.inr (.inr ⟨u, _, p, hm⟩)))
      · exact .inr (.inr (.inr (.inl ⟨_, rfl⟩)))
      · exact .inr (.inr (.inl ⟨_, _, rfl⟩))
    · simp only [List.append_assoc, List.mem_append, List.mem_cons,
        List.not_mem_nil, or_false] at h
      rcases h with (rfl | rfl | rfl | rfl | rfl) | h | (rfl | h)
      · exact .inl ⟨_, rfl⟩
      · exact .inr (.inl ⟨_, rfl⟩)
      · exact .inr (.inl ⟨_, rfl⟩)
      · exact .inr (.inr (.inl ⟨_, _, rfl⟩))
      · exact .inr (.inr (.inl ⟨_, _, rfl⟩))
      · obtain ⟨u, p, hm⟩ := runCalls_mem h
        exact .inr (.inr (.inr (.inr ⟨u, _, p, hm⟩)))
      · exact .inr (.inr (.inr (.inl ⟨_, rfl⟩)))
      · obtain ⟨u, p, hm⟩ := jiraCommentLoopEvents_mem h
        exact .inr (.inr (.inr (.inr ⟨u, _, p, hm⟩)))

theorem processLink_succ_eq (env : Env) (pk : Option String) (f d : Nat)
    (url dir pfx : String) :
    processLink env pk (f + 1) d url dir pfx =
      match classify pk url with
      | .google => (some (processGoogleLink url dir pfx).1,
          Event.visit url d :: (processGoogleLink url dir pfx).2)
      | .confluence => (some (processConfluenceLink env url dir pfx).1,
          Event.visit url d :: (processConfluenceLink env url dir pfx).2)
      | .jira => (some (processJiraLink env pk f d url dir pfx).1,
          Event.visit url d :: (processJiraLink env pk f d url dir pfx).2)
      | .noMatch => (none, [Event.visit url d]) := by
  rw [processLink]
  cases classify pk url <;> rfl

theorem processLink_trace_google {pk : Option String} {url : String}
    (env : Env) (f d : Nat) (dir pfx : String) (h : classify pk url = .google) :
    (processLink env pk (f + 1) d url dir pfx).2 =
      Event.visit url d :: (processGoogleLink url dir pfx).2 := by
  rw [processLink_succ_eq, h]

theorem processLink_trace_confluence {pk : Option String} {url : String}
    (env : Env) (f d : Nat) (dir pfx : String) (h : classify pk url = .confluence) :
    (processLink env pk (f + 1) d url dir pfx).2 =
      Event.visit url d :: (processConfluenceLink env url dir pfx).2 := by
  rw [processLink_succ_eq, h]

theorem processLink_trace_jira {pk : Option String} {url : String}
    (env : Env) (f d : Nat) (dir pfx : String) (h : classify pk url = .jira) :
    (processLink env pk (f + 1) d url dir pfx).2 =
      Event.visit url d :: (processJiraLink env pk f d url dir pfx).2 := by
  rw [processLink_succ_eq, h]

theorem processLink_trace_nomatch {pk : Option String} {url : String}
    (env : Env) (f d : Nat) (dir pfx : String) (h : classify pk url = .noMatch) :
    (processLink env pk (f + 1) d url dir pfx).2 = [Event.visit url d] := by
  rw [processLink_succ_eq, h]

theorem processLink_visit_depth {env : Env} {pk : Option String} :
    ∀ {f d url dir pfx w dd},
      Event.visit w dd ∈ (processLink env pk f d url dir pfx).2 → d ≤ dd := by
  intro f
  induction f with
  | zero =>
    intro d url dir pfx w dd h
    simp [processLink] at h
  | succ f ih =>
    intro d url dir pfx w dd h
    cases hcl : classify pk url
    case google =>
      rw [processLink_trace_google env f d dir pfx hcl] at h
      rcases List.mem_cons.mp h with heq | h2
      · cases heq; omega
      · simp [processGoogleLink] at h2
    case confluence =>
      rw [processLink_trace_confluence env f d dir pfx hcl] at h
      rcases List.mem_cons.mp h with heq | h2
      · cases heq; omega
      · rcases processConfluenceLink_shape h2 with ⟨u, hu⟩ | ⟨p, a, ha⟩ | ⟨u, hu⟩ <;>
          simp_all
    case jira =>
      rw [processLink_trace_jira env f d dir pfx hcl] at h
      rcases List.mem_cons.mp h with heq | h2
      · cases heq; omega
      · unfold processJiraLink at h2
        rcases processJiraLinkBody_mem h2 with
          ⟨k, hk⟩ | ⟨p, hp⟩ | ⟨p, a, ha⟩ | ⟨k, hk⟩ | ⟨u, d2, p, hm⟩
        · simp at hk
        · simp at hp
        · simp at ha
        · simp at hk
        · have hm2 : Event.visit w dd ∈ (processLink env pk f (d + 1) u d2 p).2 := hm
          have := ih hm2
          omega
    case noMatch =>
      rw [processLink_trace_nomatch env f d dir pfx hcl] at h
      simp only [List.mem_singleton] at h
      cases h
      omega

theorem processLink_no_generic {env : Env} {pk : Option String} :
    ∀ {f d url dir pfx u},
      Event.genericFetch u ∉ (processLink env pk f d url dir pfx).2 := by
  intro f
  induction f with
  | zero =>
    intro d url dir pfx u h
    simp [processLink] at h
  | succ f ih =>
    intro d url dir pfx u h
    cases hcl : classify pk url
    case google =>
      rw [processLink_trace_google env f d dir pfx hcl] at h
      rcases List.mem_cons.mp h with heq | h2
      · simp at heq
      · simp [processGoogleLink] at h2
    case confluence =>
      rw [processLink_trace_confluence env f d dir pfx hcl] at h
      rcases List.mem_cons.mp h with heq | h2
      · simp at heq
      · rcases processConfluenceLink_shape h2 with ⟨w, hw⟩ | ⟨p, a, ha⟩ | ⟨w, hw⟩ <;>
          simp_all
    case jira =>
      rw [processLink_trace_jira env f d dir pfx hcl] at h
      rcases List.mem_cons.mp h with heq | h2
      · simp at heq
      · unfold processJiraLink at h2
        rcases processJiraLinkBody_mem h2 with
          ⟨k, hk⟩ | ⟨p, hp⟩ | ⟨p, a, ha⟩ | ⟨k, hk⟩ | ⟨w, d2, p, hm⟩
        · simp at hk
        · simp at hp
        · simp at ha
        · simp at hk
        · have hm2 : Event.genericFetch u ∈ (processLink env pk f (d + 1) w d2 p).2 := hm
          exact ih hm2
    case noMatch =>
      rw [processLink_trace_nomatch env f d dir pfx hcl] at h
      simp at h

theorem processLink_count_visit (env : Env) (pk : Option String) (f d : Nat)
    (url dir pfx u : String) :
    ((processLink env pk (f + 1) d url dir pfx).2).count (Event.visit u d)
      = if url = u then 1 else 0 := by
  have htail : ∀ e ∈ (processLink env pk (f + 1) d url dir pfx).2,
      e = Event.visit url d ∨ e ≠ Event.visit u d := by
    intro e he
    cases hcl : classify pk url
    case google =>
      rw [processLink_trace_google env f d dir pfx hcl] at he
      rcases List.mem_cons.mp he with heq | h2
      · exact .inl heq
      · simp [processGoogleLink] at h2
        subst h2
        exact .inr (by simp)
    case confluence =>
      rw [processLink_trace_confluence env f d dir pfx hcl] at he
      rcases List.mem_cons.mp he with heq | h2
      · exact .inl heq
      · rcases processConfluenceLink_shape h2 with ⟨w, hw⟩ | ⟨p, a, ha⟩ | ⟨w, hw⟩ <;>
          subst e <;> exact .inr (by simp)
    case jira =>
      rw [processLink_trace_jira env f d dir pfx hcl] at he
      rcases List.mem_cons.mp he with heq | h2
      · exact .inl heq
      · unfold processJiraLink at h2
        rcases processJiraLinkBody_mem h2 with
          ⟨k, hk⟩ | ⟨p, hp⟩ | ⟨p, a, ha⟩ | ⟨k, hk⟩ | ⟨w, d2, p, hm⟩
        · subst e; exact .inr (by simp)
        · subst e; exact .inr (by simp)
        · subst e; exact .inr (by simp)
        · subst e; exact .inr (by simp)
        · have hm2 : e ∈ (processLink env pk f (d + 1) w d2 p).2 := hm
          right
          intro hcontra
          subst hcontra
          have := processLink_visit_depth hm2
          omega
    case noMatch =>
      rw [processLink_trace_nomatch env f d dir pfx hcl] at he
      simp only [List.mem_singleton] at he
      exact .inl he
  cases hcl : classify pk url
  case google =>
    rw [processLink_trace_google env f d dir pfx hcl]
    rw [List.count_cons]
    have hz : ((processGoogleLink url dir pfx).2).count (Event.visit u d) = 0 := by
      simp [processGoogleLink]
    rw [hz]
    by_cases hu : url = u <;> simp [hu]
  case confluence =>
    rw [processLink_trace_confluence env f d dir pfx hcl]
    rw [List.count_cons]
    have hz : ((processConfluenceLink env url dir pfx).2).count (Event.visit u d) = 0 := by
      apply List.count_eq_zero_of_not_mem
      intro hmem
      rcases processConfluenceLink_shape hmem with ⟨w, hw⟩ | ⟨p, a, ha⟩ | ⟨w, hw⟩ <;>
        simp_all
    rw [hz]
    by_cases hu : url = u <;> simp [hu]
  case jira =>
    rw [processLink_trace_jira env f d dir pfx hcl]
    rw [List.count_cons]
    have hz : ((processJiraLink env pk f d url dir pfx).2).count (Event.visit u d) = 0 := by
      apply List.count_eq_zero_of_not_mem
      intro hmem
      unfold processJiraLink at hmem
      rcases processJiraLinkBody_mem hmem with
        ⟨k, hk⟩ | ⟨p, hp⟩ | ⟨p, a, ha⟩ | ⟨k, hk⟩ | ⟨w, d2, p, hm⟩
      · simp at hk
      · simp at hp
      · simp at ha
      · simp at hk
      · have hm2 : Event.visit u d ∈ (processLink env pk f (d + 1) w d2 p).2 := hm
        have := processLink_visit_depth hm2
        omega
    rw [hz]
    by_cases hu : url = u <;> simp [hu]
  case noMatch =>
    rw [processLink_trace_nomatch env f d dir pfx hcl]
    rw [List.count_cons]
    by_cases hu : url = u <;> simp [hu]

theorem runCalls_count_visit (env : Env) (pk : Option String) (f : Nat)
    (dir u : String) (calls : List (String × String)) :
    (runCalls (fun a b c => processLink env pk (f + 1) 0 a b c) dir calls).count
        (Event.visit u 0)
      = (calls.map Prod.fst).count u := by
  induction calls with
  | nil => simp [runCalls]
  | cons hd tl ih =>
    obtain ⟨hu, hp⟩ := hd
    rw [runCalls, List.count_append, ih, List.map_cons, List.count_cons]
    have : ((fun a b c => processLink env pk (f + 1) 0 a b c) hu dir hp).2.count
        (Event.visit u 0) = if hu = u then 1 else 0 :=
      processLink_count_visit env pk f 0 hu dir hp u
    rw [this]
    by_cases h : hu = u <;> simp [h, Nat.add_comm]

theorem jiraCommentLoopEvents_count_visit (env : Env) (pk : Option String) (f : Nat)
    (dir u : String) (cs : List JiraComment) :
    (jiraCommentLoopEvents (fun a b c => processLink env pk (f + 1) 0 a b c) dir cs).count
        (Event.visit u 0)
      = (cs.map (fun c => ((commentBodyCalls c).map Prod.fst).count u)).sum := by
  induction cs with
  | nil => simp [jiraCommentLoopEvents]
  | cons c rest ih =>
    rw [jiraCommentLoopEvents, List.count_append, runCalls_count_visit, ih,
      List.map_cons, List.sum_cons]

theorem commentBodyCalls_count (c : JiraComment) (u : String) :
    ((commentBodyCalls c).map Prod.fst).count u
      = match c.body with
        | none => 0
        | some b => if b = "" then 0 else if u ∈ findallComment b then 1 else 0 := by
  unfold commentBodyCalls
  cases c.body with
  | none => simp
  | some b =>
    by_cases hb : b = ""
    · simp [hb]
    · simp [hb, commentCalls_map_fst, pySet_count]

theorem processBatchLoop_spec (env : Env) (fuel : Nat) (pk : String) :
    ∀ issues : List JiraIssue,
      processBatchLoop env fuel pk issues
        = ((issues.filter (fun i => (processTicket env (some pk) fuel i none).1)).length,
           (issues.map (fun i => (processTicket env (some pk) fuel i none).2)).flatten) := by
  intro issues
  induction issues with
  | nil => simp [processBatchLoop]
  | cons i rest ih =>
    rw [processBatchLoop, ih]
    by_cases h : (processTicket env (some pk) fuel i none).1 <;>
      simp [List.filter_cons, h, Nat.add_comm]

theorem extractTicketsLoop_failed (env : Env) (fuel batchSize : Nat) :
    ∀ bl : List Nat,
      (extractTicketsLoop env fuel batchSize bl).1
        = (bl.filter (fun b => !(processBatch env fuel (b * batchSize) batchSize).1.1)).map
            (· + 1) := by
  intro bl
  induction bl with
  | nil => simp [extractTicketsLoop]
  | cons b rest ih =>
    rw [extractTicketsLoop]
    by_cases h : (processBatch env fuel (b * batchSize) batchSize).1.1 <;>
      simp [List.filter_cons, h, ih]

theorem appendToParent_none (p : String) (entry : String × String) :
    ∀ out : List ThreadItem,
      appendToParent p entry out = none ↔ p ∉ out.map ThreadItem.id := by
  intro out
  induction out with
  | nil => simp [appendToParent]
  | cons item rest ih =>
    rw [appendToParent]
    by_cases h : item.id = p
    · simp [h]
    · simp only [h, if_false, List.map_cons, List.mem_cons, Option.map_eq_none', ih]
      constructor
      · intro hn
        rintro (heq | hmem)
        · exact h heq.symm
        · exact hn hmem
      · intro hn hmem
        exact hn (.inr hmem)

theorem processInlineCommentsAux_append (l1 l2 : List RawComment) :
    ∀ out : List ThreadItem,
      processInlineCommentsAux out (l1 ++ l2)
        = match processInlineCommentsAux out l1 with
          | .ok out2 => processInlineCommentsAux out2 l2
          | .error e => .error e := by
  induction l1 with
  | nil => intro out; simp [processInlineCommentsAux]
  | cons c rest ih =>
    intro out
    rw [List.cons_append, processInlineCommentsAux]
    conv_rhs => rw [processInlineCommentsAux]
    cases hp : c.parentId with
    | some p =>
      simp only [hp]
      cases ha : appendToParent p (c.author, c.body) out with
      | some out2 => simp only [ha, ih]
      | none => simp only [ha]
    | none => simp only [hp, ih]

theorem processInlineComments_badParent {pre : List RawComment} {c : RawComment}
    {out : List ThreadItem} {p : String}
    (hpre : processInlineCommentsAux [] pre = .ok out)
    (hc : c.parentId = some p) (habs : p ∉ out.map ThreadItem.id) :
    processInlineComments (pre ++ [c])
      = .error ("Parent ID " ++ p ++ " not found in output list") := by
  unfold processInlineComments
  rw [processInlineCommentsAux_append]
  simp only [hpre, processInlineCommentsAux, hc,
    (appendToParent_none p (c.author, c.body) out).mpr habs]

/-! ## Claim theorems -/

/-- C1: code evaluation at the failing input.  The spec requires a per-ticket
visited-URL set that prevents re-fetching a URL already visited in the
traversal.  The code has no such set: resolving a ticket whose description
contains its own browse URL fetches that same ticket again at every
recursion level.  With call-stack fuel 3, the single top-level resolution of
http://j/browse/K-1 performs three fetches of ticket K-1 and visits the same
URL at depths 0, 1 and 2. -/
theorem C1_no_visited_set_eval :
    (processLink envCycle (some "K") 3 0 "http://j/browse/K-1" "links" "p").2.count
        (Event.jiraFetch "K-1") = 3
    ∧ (processLink envCycle (some "K") 3 0 "http://j/browse/K-1" "links" "p").2.count
        (Event.visit "http://j/browse/K-1" 0) = 1
    ∧ (processLink envCycle (some "K") 3 0 "http://j/browse/K-1" "links" "p").2.count
        (Event.visit "http://j/browse/K-1" 1) = 1 := by
  decide

/-- C2: code evaluation at the failing input.  The spec requires a maximum
recursion depth (recommended default 3).  The code has no depth parameter at
all: a chain of seven cross-referencing tickets drives the recursion to
depth 6, where ticket K7 is still visited. -/
theorem C2_no_depth_limit_eval :
    (processLink envChain (some "K") 10 0 "http://j/browse/K1" "links" "p").2.contains
      (Event.visit "http://j/browse/K7" 6) = true := by
  decide

/-- C3 counterexample.  A URL matching none of the three branches is not
dispatched to the generic web fetcher: process_link performs no action and
returns None, refuting "every remaining URL classifies as Generic (and is
dispatched to the generic web fetcher)".  Also, the ContentSystem test is the
substring "pages" anywhere in the URL (Python's and-chain collapses to its
last operand), so a browse URL with "pages" in its query string classifies as
ContentSystem rather than TrackerTicket. -/
theorem C3_counterexample :
    classify (some "PROJ") "http://example.org/a" = .noMatch
    ∧ processLink envOkComments (some "PROJ") 1 0 "http://example.org/a" "links" "p"
        = (none, [Event.visit "http://example.org/a" 0])
    ∧ classify (some "PROJ") "http://t.example/browse/T-1?tab=pages" = .confluence := by
  decide

/-- C3 amended: classification is pure, total and never raises, evaluated
first-match-wins in source order: (1) a Google-docs/drive host gives the
DocStore branch; (2) otherwise the substring "pages" anywhere in the URL
(not only the path; the wiki/spaces markers are not tested) gives the
ContentSystem branch; (3) otherwise a truthy project key together with
"browse" in the URL gives the TrackerTicket branch; (4) any remaining URL
matches no branch, and the dispatcher then performs no action and returns
None — it is never dispatched to the generic web fetcher.  Dispatch follows
classification exactly. -/
theorem C3_amended_dispatch (pk : Option String) (url : String) :
    ((isSubstr "docs.google.com" (netloc url) || isSubstr "drive.google.com" (netloc url))
        = true → classify pk url = .google)
    ∧ ((isSubstr "docs.google.com" (netloc url) || isSubstr "drive.google.com" (netloc url))
        = false → isSubstr "pages" url = true → classify pk url = .confluence)
    ∧ ((isSubstr "docs.google.com" (netloc url) || isSubstr "drive.google.com" (netloc url))
        = false → isSubstr "pages" url = false →
        (optTruthy pk && isSubstr "browse" url) = true → classify pk url = .jira)
    ∧ ((isSubstr "docs.google.com" (netloc url) || isSubstr "drive.google.com" (netloc url))
        = false → isSubstr "pages" url = false →
        (optTruthy pk && isSubstr "browse" url) = false → classify pk url = .noMatch)
    ∧ (∀ env f d dir pfx, classify pk url = .google →
        processLink env pk (f + 1) d url dir pfx
          = (some (processGoogleLink url dir pfx).1,
             Event.visit url d :: (processGoogleLink url dir pfx).2))
    ∧ (∀ env f d dir pfx, classify pk url = .confluence →
        processLink env pk (f + 1) d url dir pfx
          = (some (processConfluenceLink env url dir pfx).1,
             Event.visit url d :: (processConfluenceLink env url dir pfx).2))
    ∧ (∀ env f d dir pfx, classify pk url = .jira →
        processLink env pk (f + 1) d url dir pfx
          = (some (processJiraLink env pk f d url dir pfx).1,
             Event.visit url d :: (processJiraLink env pk f d url dir pfx).2))
    ∧ (∀ env f d dir pfx, classify pk url = .noMatch →
        processLink env pk (f + 1) d url dir pfx = (none, [Event.visit url d])) := by
  refine ⟨?_, ?_, ?_, ?_, ?_, ?_, ?_, ?_⟩
  · intro h1
    simp [classify, h1]
  · intro h1 h2
    simp [classify, h1, h2]
  · intro h1 h2 h3
    simp [classify, h1, h2, h3]
  · intro h1 h2 h3
    simp [classify, h1, h2, h3]
  · intro env f d dir pfx h
    rw [processLink_succ_eq, h]
  · intro env f d dir pfx h
    rw [processLink_succ_eq, h]
  · intro env f d dir pfx h
    rw [processLink_succ_eq, h]
  · intro env f d dir pfx h
    rw [processLink_succ_eq, h]

/-- C3 amended witness: concrete instances of the dispatch contract. -/
theorem C3_amended_dispatch_witness :
    classify (some "PROJ") "http://docs.google.com/d/x" = .google
    ∧ processLink envBase (some "PROJ") 1 0 "http://x.org/a" "L" "p"
        = (none, [Event.visit "http://x.org/a" 0]) := by
  refine ⟨?_, ?_⟩
  · exact (C3_amended_dispatch (some "PROJ") "http://docs.google.com/d/x").1 (by decide)
  · exact (C3_amended_dispatch (some "PROJ") "http://x.org/a").2.2.2.2.2.2.2
      envBase 0 0 "L" "p" (by decide)

/-- C5: each fetcher whose dispatched fetch fails writes a JSON error record
with exactly the url, a type tag and the error, and returns normally instead
of raising.  Both failure modes of the generic web fetcher are covered: a
transport failure of the GET (network/timeout, the request raising), and an
HTTP error, i.e. a completed response whose status is 400 or above, which
raise_for_status turns into the same except branch — each yields the
{url, type: "generic", error} artifact.  Likewise the Confluence fetcher
writes {url, type: "confluence", error} and the nested ticket fetcher
{url, type: "jira", error}. -/
theorem C5_error_artifacts :
    (∀ env url dir pfx e, env.httpGet url = .error e →
      processGenericLink env url dir pfx
        = (true, [.genericFetch url, .httpGet url,
            .save (dir ++ "/" ++ pfx ++ "_link.json") (.errJson url "generic" e)]))
    ∧ (∀ env url dir pfx r, env.httpGet url = .ok r → r.status ≥ 400 →
      processGenericLink env url dir pfx
        = (true, [.genericFetch url, .httpGet url,
            .save (dir ++ "/" ++ pfx ++ "_link.json")
              (.errJson url "generic" ("HTTP error " ++ toString r.status))]))
    ∧ (∀ env url dir pfx e, getContentByPageUrl env url = .error e →
      processConfluenceLink env url dir pfx
        = (true, [.confluenceFetch url,
            .save (dir ++ "/" ++ pfx ++ "_confluence_link.json")
              (.errJson url "confluence" e)]))
    ∧ (∀ recur env url dir pfx e, env.issue (lastComponent url) = .error e →
      processJiraLinkBody recur env url dir pfx
        = (true, [.jiraFetch (lastComponent url),
            .save (dir ++ "/" ++ pfx ++ "_jira_link.json") (.errJson url "jira" e)])) := by
  refine ⟨?_, ?_, ?_, ?_⟩
  · intro env url dir pfx e h
    simp only [processGenericLink, h]
  · intro env url dir pfx r h hs
    simp only [processGenericLink, h, if_pos hs]
  · intro env url dir pfx e h
    simp only [processConfluenceLink, h]
  · intro recur env url dir pfx e h
    simp only [processJiraLinkBody, h]

/-- C5 witness: the error-record artifacts at concrete failing environments,
including a completed 404 response. -/
theorem C5_error_artifacts_witness :
    processGenericLink envBase "http://a.b/c" "L" "p"
      = (true, [.genericFetch "http://a.b/c", .httpGet "http://a.b/c",
          .save "L/p_link.json" (.errJson "http://a.b/c" "generic" "offline")])
    ∧ processGenericLink envHttp404 "http://a.b/c" "L" "p"
      = (true, [.genericFetch "http://a.b/c", .httpGet "http://a.b/c",
          .save "L/p_link.json"
            (.errJson "http://a.b/c" "generic" ("HTTP error " ++ toString (404 : Nat)))])
    ∧ processConfluenceLink envBase "http://w/pages/1" "L" "p"
      = (true, [.confluenceFetch "http://w/pages/1",
          .save "L/p_confluence_link.json" (.errJson "http://w/pages/1" "confluence" "offline")]) := by
  refine ⟨?_, ?_, ?_⟩
  · exact C5_error_artifacts.1 envBase "http://a.b/c" "L" "p" "offline" rfl
  · exact C5_error_artifacts.2.1 envHttp404 "http://a.b/c" "L" "p"
      { status := 404, contentType := "text/html", body := "not found" } rfl (by decide)
  · exact C5_error_artifacts.2.2.1 envBase "http://w/pages/1" "L" "p" "offline" rfl

/-- C7 counterexample: on a zero-result probe the extraction returns success
and processes nothing, but it DOES create the output root directory (the
mkdir happens before the probe), refuting "performs no directory
creation". -/
theorem C7_counterexample :
    extractTickets envZero 1 50 = (true, [Event.mkdir "jira_tickets"])
    ∧ (extractTickets envZero 1 50).2 ≠ [] := by
  decide

/-- C7 amended: when the probe reports zero results, extract_tickets returns
success having ensured (created if absent) the output root directory and
nothing else: no batch runs, no ticket is processed, no other directory or
file is created. -/
theorem C7_amended_zero_probe (env : Env) (fuel m : Nat) (h : env.searchTotal = .ok 0) :
    extractTickets env fuel m = (true, [Event.mkdir "jira_tickets"]) := by
  simp only [extractTickets, h]

/-- C7 amended witness. -/
theorem C7_amended_zero_probe_witness :
    extractTickets envZero 3 50 = (true, [Event.mkdir "jira_tickets"]) :=
  C7_amended_zero_probe envZero 3 50 rfl

/-- C10: a URL matching none of the three dispatcher branches causes
process_link to perform no action (no artifact written, nothing fetched) and
return None (Option.none, a falsy non-boolean value); and no execution of
process_link, at any fuel and depth, ever reaches process_generic_link (no
genericFetch event can occur in its trace). -/
theorem C10_nomatch_none (pk : Option String) (url : String) :
    (∀ env f d dir pfx, classify pk url = .noMatch →
      processLink env pk (f + 1) d url dir pfx = (none, [Event.visit url d]))
    ∧ (∀ env f d dir pfx u, Event.genericFetch u ∉ (processLink env pk f d url dir pfx).2) := by
  refine ⟨?_, ?_⟩
  · intro env f d dir pfx h
    rw [processLink_succ_eq, h]
  · intro env f d dir pfx u
    exact processLink_no_generic

/-- C10 witness: concrete unmatched URL with a known project key. -/
theorem C10_nomatch_none_witness :
    processLink envBase (some "K") 1 0 "http://plain.example/x" "L" "p"
      = (none, [Event.visit "http://plain.example/x" 0])
    ∧ Event.genericFetch "http://plain.example/x"
        ∉ (processLink envBase (some "K") 4 0 "http://plain.example/x" "L" "p").2 := by
  refine ⟨?_, ?_⟩
  · exact (C10_nomatch_none (some "K") "http://plain.example/x").1 envBase 0 0 "L" "p" (by decide)
  · exact (C10_nomatch_none (some "K") "http://plain.example/x").2 envBase 4 0 "L" "p"
      "http://plain.example/x"

/-- C4 counterexample: a batch containing a failed ticket still reports
success.  In envBatch the only batch holds tickets K-1 (succeeds) and K-2
(its comment fetch raises, so its processing fails), yet the batch returns
(True, 1), the failed-batch list stays empty, and the overall extraction
returns success — refuting "a batch's outcome is success only if every
ticket in that batch completed Done". -/
theorem C4_counterexample :
    (processTicket envBatch (some "K") 2 issueBadComments none).1 = false
    ∧ (processBatch envBatch 2 0 50).1 = (true, 1)
    ∧ (extractTickets envBatch 2 50).1 = true := by
  decide

/-- C4 amended: a batch fails only when its own page fetch raises or the
page is empty; when the page is nonempty every ticket in it is processed
(per-ticket failures never abort siblings: the batch trace is the
concatenation of every ticket's trace) and the batch reports success with
the count of tickets that completed; the failed-batch list holds exactly the
1-indexed indices of batch-level failures; and when batches run, the
engine's overall result is success exactly when that list is empty. -/
theorem C4_amended_batch_outcome :
    (∀ env fuel startAt bs (first : JiraIssue) (rest : List JiraIssue),
      env.search startAt bs = .ok (first :: rest) →
        processBatch env fuel startAt bs
          = ((true,
              ((first :: rest).filter
                (fun i => (processTicket env (some first.projectKey) fuel i none).1)).length),
             ((first :: rest).map
                (fun i => (processTicket env (some first.projectKey) fuel i none).2)).flatten))
    ∧ (∀ env fuel bs (bl : List Nat),
        (extractTicketsLoop env fuel bs bl).1
          = (bl.filter (fun b => !(processBatch env fuel (b * bs) bs).1.1)).map (· + 1))
    ∧ (∀ env fuel m total, env.searchTotal = .ok total → total ≠ 0 → min m 100 ≠ 0 →
        ((extractTickets env fuel m).1 = true ↔
          (extractTicketsLoop env fuel (min m 100)
            (List.range ((total + min m 100 - 1) / min m 100))).1 = [])) := by
  refine ⟨?_, ?_, ?_⟩
  · intro env fuel startAt bs first rest h
    simp only [processBatch, h, processBatchLoop_spec]
  · intro env fuel bs bl
    exact extractTicketsLoop_failed env fuel bs bl
  · intro env fuel m total h htot hbs
    cases total with
    | zero => exact absurd rfl htot
    | succ t =>
      simp only [extractTickets, h, if_neg hbs]
      exact List.isEmpty_iff

/-- C4 amended witness: the concrete batch of envBatch. -/
theorem C4_amended_batch_outcome_witness :
    processBatch envBatch 2 0 50
      = ((true,
          (([issueEmpty, issueBadComments]).filter
            (fun i => (processTicket envBatch (some issueEmpty.projectKey) 2 i none).1)).length),
         (([issueEmpty, issueBadComments]).map
            (fun i => (processTicket envBatch (some issueEmpty.projectKey) 2 i none).2)).flatten)
    ∧ ((extractTickets envBatch 2 50).1 = true ↔
        (extractTicketsLoop envBatch 2 (min 50 100)
          (List.range ((2 + min 50 100 - 1) / min 50 100))).1 = []) := by
  refine ⟨?_, ?_⟩
  · exact C4_amended_batch_outcome.1 envBatch 2 0 50 issueEmpty [issueBadComments] rfl
  · exact C4_amended_batch_outcome.2.2 envBatch 2 50 2 rfl (by decide) (by decide)

/-- C6 counterexample: the description-link loop has no set(): an issue whose
description contains the same URL twice invokes the resolution engine twice
for it (two depth-0 visits), refuting "once per distinct URL found in the
description". -/
theorem C6_counterexample :
    descUrls issueDupDesc.description = ["http://g.co/a", "http://g.co/a"]
    ∧ (extractLinks envOkComments (some "K") 2 issueDupDesc "T").2.count
        (Event.visit "http://g.co/a" 0) = 2 := by
  decide

/-- C6 amended: within _extract_links, the resolution engine is invoked once
per OCCURRENCE of a URL in the description (description URLs are not
deduplicated) and once per distinct URL in each comment body (comment URLs
pass through set() first): the number of depth-0 visits of a URL equals its
occurrence count in the description-URL list plus, per comment, one if the
URL occurs in that comment's body at all (so a URL repeated three times in
one comment still resolves once there). -/
theorem C6_amended_dedup (env : Env) (pk : Option String) (f : Nat)
    (i : JiraIssue) (dir u : String) (cs : List JiraComment)
    (h : env.comments i.key = .ok cs) :
    ((extractLinks env pk (f + 1) i dir).2.count (Event.visit u 0)
      = (descUrls i.description).count u
        + (cs.map (fun c => ((commentBodyCalls c).map Prod.fst).count u)).sum)
    ∧ (∀ (c : JiraComment) (b : String), c.body = some b → b ≠ "" →
        ((commentBodyCalls c).map Prod.fst).count u
          = if u ∈ findallComment b then 1 else 0) := by
  refine ⟨?_, ?_⟩
  · simp only [extractLinks, h, List.count_cons, List.count_append]
    rw [runCalls_count_visit, descCalls_map_fst, jiraCommentLoopEvents_count_visit]
    simp
  · intro c b hb hbe
    rw [commentBodyCalls_count, hb]
    simp [hbe]

/-- C6 amended witness: one comment holding the same URL three times
resolves it exactly once. -/
theorem C6_amended_dedup_witness :
    ((extractLinks envTriple (some "K") 1 issueEmpty "T").2.count
        (Event.visit "http://x.y/z" 0)
      = (descUrls issueEmpty.description).count "http://x.y/z"
        + ([commentTriple].map
            (fun c => ((commentBodyCalls c).map Prod.fst).count "http://x.y/z")).sum)
    ∧ (extractLinks envTriple (some "K") 1 issueEmpty "T").2.count
        (Event.visit "http://x.y/z" 0) = 1 := by
  refine ⟨?_, ?_⟩
  · exact (C6_amended_dedup envTriple (some "K") 0 issueEmpty "T" "http://x.y/z"
      [commentTriple] rfl).1
  · decide

/-- C8 counterexample: a ticket with zero attachments, zero comments and no
description reaches Done, but produces THREE file artifacts, not two: besides
{key}_info.json and {key}.pdf, comments/comments.json is always written (with
an empty list), refuting "exactly two artifacts". -/
theorem C8_counterexample :
    (processTicket envOkComments (some "K") 1 issueEmpty none).1 = true
    ∧ ((processTicket envOkComments (some "K") 1 issueEmpty none).2.filter isSave).length = 3
    ∧ Event.save "jira_tickets/K-1/comments/comments.json" (Artifact.commentsJson [])
        ∈ (processTicket envOkComments (some "K") 1 issueEmpty none).2 := by
  decide

/-- C8 amended: a ticket with no attachments, an empty comment list and a
description containing no URLs reaches Done and performs exactly these
actions: the ticket directory, {key}_info.json, {key}.pdf, the attachments/
directory, the comments/ directory, a comment fetch, comments/comments.json
(an empty list), the links/ directory and a second comment fetch — in that
order.  In particular exactly three file artifacts are written. -/
theorem C8_amended_empty_ticket (env : Env) (pk : Option String) (fuel : Nat)
    (i : JiraIssue) (hatt : i.attachments = []) (hcom : env.comments i.key = .ok [])
    (hdesc : descUrls i.description = []) :
    processTicket env pk fuel i none
      = (true,
        [Event.mkdir ("jira_tickets/" ++ i.key),
         Event.save ("jira_tickets/" ++ i.key ++ "/" ++ i.key ++ "_info.json")
           (.infoJson (mkTicketData i)),
         Event.save ("jira_tickets/" ++ i.key ++ "/" ++ i.key ++ ".pdf")
           (.ticketPdf (mkTicketData i)),
         Event.mkdir ("jira_tickets/" ++ i.key ++ "/attachments"),
         Event.mkdir ("jira_tickets/" ++ i.key ++ "/comments"),
         Event.commentsFetch i.key,
         Event.save ("jira_tickets/" ++ i.key ++ "/comments" ++ "/comments.json")
           (.commentsJson []),
         Event.mkdir ("jira_tickets/" ++ i.key ++ "/links"),
         Event.commentsFetch i.key]) := by
  simp only [processTicket, Option.getD, saveTicketInfo, createTicketPdf,
    extractAttachments, attachmentLoop, hatt, extractComments, hcom,
    extractCommentsLoop, extractLinks, hdesc, descCalls, List.map_nil,
    runCalls, jiraCommentLoopEvents, Bool.not_true, Bool.not_false,
    if_true, if_false]
  simp

/-- C8 amended witness. -/
theorem C8_amended_empty_ticket_witness :
    processTicket envOkComments (some "K") 5 issueEmpty none
      = (true,
        [Event.mkdir ("jira_tickets/" ++ issueEmpty.key),
         Event.save ("jira_tickets/" ++ issueEmpty.key ++ "/" ++ issueEmpty.key ++ "_info.json")
           (.infoJson (mkTicketData issueEmpty)),
         Event.save ("jira_tickets/" ++ issueEmpty.key ++ "/" ++ issueEmpty.key ++ ".pdf")
           (.ticketPdf (mkTicketData issueEmpty)),
         Event.mkdir ("jira_tickets/" ++ issueEmpty.key ++ "/attachments"),
         Event.mkdir ("jira_tickets/" ++ issueEmpty.key ++ "/comments"),
         Event.commentsFetch issueEmpty.key,
         Event.save ("jira_tickets/" ++ issueEmpty.key ++ "/comments" ++ "/comments.json")
           (.commentsJson []),
         Event.mkdir ("jira_tickets/" ++ issueEmpty.key ++ "/links"),
         Event.commentsFetch issueEmpty.key]) :=
  C8_amended_empty_ticket envOkComments (some "K") 5 issueEmpty rfl rfl rfl

/-- C9: an inline comment whose declared parent id is not among the ids of
already-seen top-level inline comments makes process_inline_comments raise a
ValueError; this failure is fatal to that page only: process_confluence_link
records the {url, type: "confluence", error} artifact (and nothing else for
that page) and returns normally, and a ticket's _extract_links still returns
success whenever the comment fetch itself succeeds, so the enclosing ticket
extraction continues. -/
theorem C9_unknown_parent (env : Env) (pk : Option String) (url dir pfx : String)
    (page : RawPage) (atts : List String) (pre : List RawComment) (c : RawComment)
    (out : List ThreadItem) (p : String)
    (hraw : env.confluenceRaw url = .ok (page, atts))
    (hinline : page.comments.filter (fun rc => rc.location = "inline") = pre ++ [c])
    (hpre : processInlineCommentsAux [] pre = .ok out)
    (hc : c.parentId = some p) (habs : p ∉ out.map ThreadItem.id) :
    processConfluenceLink env url dir pfx
      = (true, [.confluenceFetch url,
          .save (dir ++ "/" ++ pfx ++ "_confluence_link.json")
            (.errJson url "confluence" ("Parent ID " ++ p ++ " not found in output list"))])
    ∧ (∀ f d, classify pk url = .confluence →
        processLink env pk (f + 1) d url dir pfx
          = (some true, Event.visit url d :: [.confluenceFetch url,
              .save (dir ++ "/" ++ pfx ++ "_confluence_link.json")
                (.errJson url "confluence"
                  ("Parent ID " ++ p ++ " not found in output list"))]))
    ∧ (∀ (env2 : Env) pk2 g (i : JiraIssue) tdir cs, env2.comments i.key = .ok cs →
        (extractLinks env2 pk2 g i tdir).1 = true) := by
  have hcontent : getContentByPageUrl env url
      = .error ("Parent ID " ++ p ++ " not found in output list") := by
    simp only [getContentByPageUrl, hraw, mkConfluenceContent, hinline,
      processInlineComments_badParent hpre hc habs]
  have h1 : processConfluenceLink env url dir pfx
      = (true, [.confluenceFetch url,
          .save (dir ++ "/" ++ pfx ++ "_confluence_link.json")
            (.errJson url "confluence"
              ("Parent ID " ++ p ++ " not found in output list"))]) := by
    simp only [processConfluenceLink, hcontent]
  refine ⟨h1, ?_, ?_⟩
  · intro f d hcl
    rw [processLink_succ_eq, hcl, h1]
  · intro env2 pk2 g i tdir cs h
    simp only [extractLinks, h]

/-- C9 witness: a concrete two-comment page whose second inline comment
references the unknown parent id 9. -/
theorem C9_unknown_parent_witness :
    processConfluenceLink envConf "http://w/pages/100" "L" "p"
      = (true, [.confluenceFetch "http://w/pages/100",
          .save "L/p_confluence_link.json"
            (.errJson "http://w/pages/100" "confluence"
              ("Parent ID " ++ "9" ++ " not found in output list"))]) :=
  (C9_unknown_parent envConf (some "K") "http://w/pages/100" "L" "p" pageBad [] [rcTop] rcBad
    [{ id := "1", inlineSource := "sel", comments := [("A", "b1")] }] "9"
    rfl rfl rfl rfl (by decide)).1

end JiraExtractor